import Mathlib

/-!
Shallow embedding of the queue-backend layer of the doc-healing service:

* `src/doc_healing/queue/base.py` — the `Task` record and the `QueueBackend`
  interface;
* `src/doc_healing/queue/memory_backend.py` — `MemoryQueueBackend`;
* `src/doc_healing/queue/redis_backend.py` — `RedisQueueBackend`;
* `src/doc_healing/queue/factory.py` — `get_queue_backend` /
  `reset_queue_backend`.

Modelling conventions, fixed once here:

* Python dicts are insertion-ordered association lists (`lookupA`, `setA`,
  `eraseA` mirror `d[k]`, `d[k] = v`, `del d[k]`; `d[k] = v` updates in place
  when the key exists and appends otherwise, exactly as CPython does).
* `threading.Queue` is a FIFO list whose head is the next item `get` returns;
  `put` appends at the tail.
* Mutations performed under `self.lock` are single atomic state updates; the
  claims under study are sequential properties of the operations, so the lock
  itself needs no further modelling.
* `str(uuid.uuid4())` (and RQ's job-id generation) supplies a fresh string per
  call; the model draws it from a per-backend counter rendered injectively by
  `freshId`, which captures exactly the freshness the source relies on.
* Handlers are arbitrary effectful callables; the model types them as
  `Handler ω ε`: a function of the positional arguments, keyword arguments and
  an external world `ω`, returning the new world or raising an exception `ε`.
* Logging calls are effect-free for every property below and are dropped.
-/

namespace DocHealing

/-- Association-list lookup, embedding Python's `d[k]` / `k in d` on a dict
represented as an insertion-ordered list of key-value pairs. -/
def lookupA {α : Type} (k : String) : List (String × α) → Option α
  | [] => none
  | (k2, v) :: rest => if k2 = k then some v else lookupA k rest

/-- Association-list store, embedding Python's `d[k] = v`: update in place when
the key is present, append otherwise. -/
def setA {α : Type} (k : String) (v : α) : List (String × α) → List (String × α)
  | [] => [(k, v)]
  | (k2, v2) :: rest => if k2 = k then (k, v) :: rest else (k2, v2) :: setA k v rest

/-- Association-list removal, embedding Python's `del d[k]` (and a no-op when
the key is absent, as used behind `if k in d:` guards). -/
def eraseA {α : Type} (k : String) : List (String × α) → List (String × α)
  | [] => []
  | (k2, v) :: rest => if k2 = k then eraseA k rest else (k2, v) :: eraseA k rest

/-- Embedding of the `Task` dataclass of `queue/base.py`: identity, target
function name, positional and keyword arguments, owning queue name.
Argument values are represented as strings, which is all the specified
properties require of them. -/
structure Task where
  id : String
  func_name : String
  args : List String
  kwargs : List (String × String)
  queue_name : String
deriving DecidableEq, Repr

/-- Fresh task-id supply. The source draws `str(uuid.uuid4())` (memory backend)
or the broker's generated job id (Redis backend) — a fresh, never-repeating
string per call. The model draws the n-th id from a counter, rendered as an
injective string so distinct draws are distinct ids. -/
def freshId (n : Nat) : String := String.mk (List.replicate n 'u')

/-- Embedding of a task handler: a callable of the positional and keyword
arguments and an external world `ω`, which either succeeds with a new world or
raises an exception of type `ε`. -/
def Handler (ω ε : Type) : Type :=
  List String → List (String × String) → ω → Except ε ω

/-- One item of a `threading.Queue` channel in the memory backend: the tuple
`(func, args, kwargs, task)` that `enqueue` puts and the workers / `get_task`
get. -/
structure QItem (ω ε : Type) where
  func : Handler ω ε
  args : List String
  kwargs : List (String × String)
  task : Task

/-- Embedding of the state of `MemoryQueueBackend` (`memory_backend.py`):
`queues` maps queue names to FIFO channels, `tasks` maps pending task ids to
tasks, `workers` counts started worker threads, `running` is the worker-loop
flag, `sync_processing` and `worker_threads` are the settings snapshot taken
at construction, and `nextId` is the fresh-id counter modelling
`str(uuid.uuid4())` (see `freshId`). -/
structure MemoryQueueBackend (ω ε : Type) where
  queues : List (String × List (QItem ω ε))
  tasks : List (String × Task)
  workers : Nat
  running : Bool
  sync_processing : Bool
  worker_threads : Nat
  nextId : Nat

/-- Backend selector of `doc_healing/config.py` consumed by the factory. -/
inductive QueueBackendEnum where
  | redis
  | memory
deriving DecidableEq, Repr

/-- Settings snapshot consumed by the queue layer (`get_settings()`): backend
kind, synchronous-processing flag, worker-thread count. -/
structure Settings where
  queue_backend : QueueBackendEnum
  sync_processing : Bool
  worker_threads : Nat
deriving DecidableEq, Repr

/-- Embedding of `MemoryQueueBackend.__init__`: empty queue and task maps; in
synchronous mode no workers are started, otherwise `_start_workers` sets
`running` and starts `worker_threads` workers. -/
def MemoryQueueBackend.init (ω ε : Type) (settings : Settings) :
    MemoryQueueBackend ω ε :=
  if settings.sync_processing then
    { queues := [], tasks := [], workers := 0, running := false,
      sync_processing := true, worker_threads := settings.worker_threads,
      nextId := 0 }
  else
    { queues := [], tasks := [], workers := settings.worker_threads,
      running := true, sync_processing := false,
      worker_threads := settings.worker_threads, nextId := 0 }

/-- Embedding of `MemoryQueueBackend._get_queue`: return the channel of
`queue_name`, creating and memoizing an empty one when absent (the
double-checked locking collapses to one atomic update in the sequential
model). Returns the channel contents and the possibly extended state. -/
def MemoryQueueBackend.get_queue {ω ε : Type} (s : MemoryQueueBackend ω ε)
    (queue_name : String) : List (QItem ω ε) × MemoryQueueBackend ω ε :=
  match lookupA queue_name s.queues with
  | some q => (q, s)
  | none => ([], { s with queues := setA queue_name [] s.queues })

/-- Embedding of `MemoryQueueBackend.mark_complete`: delete `task.id` from the
pending map when present (a no-op otherwise), then log. -/
def MemoryQueueBackend.mark_complete {ω ε : Type} (s : MemoryQueueBackend ω ε)
    (task : Task) : MemoryQueueBackend ω ε :=
  { s with tasks := eraseA task.id s.tasks }

/-- Embedding of `MemoryQueueBackend.mark_failed`: delete `task.id` from the
pending map when present (a no-op otherwise), then log the error. The error
argument is only logged. -/
def MemoryQueueBackend.mark_failed {ω ε : Type} (s : MemoryQueueBackend ω ε)
    (task : Task) (error : ε) : MemoryQueueBackend ω ε :=
  { s with tasks := eraseA task.id s.tasks }

/-- Embedding of `MemoryQueueBackend.enqueue`. A `Task` is built with a fresh
id. In synchronous mode the handler runs inline against the world `w`: on
success `mark_complete` runs and the task is returned; on failure
`mark_failed` runs and the handler's exception is re-raised (`Except.error`).
In asynchronous mode the task enters the pending map and the tuple is put on
the named channel. Returns the result (task or re-raised exception), the new
backend state and the new world. `func_name` stands for `func.__name__`. -/
def MemoryQueueBackend.enqueue {ω ε : Type} (s : MemoryQueueBackend ω ε)
    (w : ω) (queue_name : String) (func : Handler ω ε) (func_name : String)
    (args : List String) (kwargs : List (String × String)) :
    Except ε Task × MemoryQueueBackend ω ε × ω :=
  let task : Task :=
    { id := freshId s.nextId, func_name := func_name, args := args,
      kwargs := kwargs, queue_name := queue_name }
  let s1 : MemoryQueueBackend ω ε := { s with nextId := s.nextId + 1 }
  if s1.sync_processing then
    match func args kwargs w with
    | Except.ok w2 => (Except.ok task, s1.mark_complete task, w2)
    | Except.error e => (Except.error e, s1.mark_failed task e, w)
  else
    let qs := s1.get_queue queue_name
    let s2 := { qs.2 with tasks := setA task.id task qs.2.tasks }
    let s3 := { s2 with
      queues := setA queue_name (qs.1 ++ [⟨func, args, kwargs, task⟩]) s2.queues }
    (Except.ok task, s3, w)

/-- Embedding of `MemoryQueueBackend.get_task`: get the named channel (created
if absent), pop the next tuple (`get_nowait` for `timeout = some 0`, bounded
or indefinite `get` otherwise — in the sequential model the channel contents
at the call decide the outcome), put the tuple back, and return its task;
`none` when the channel is empty. -/
def MemoryQueueBackend.get_task {ω ε : Type} (s : MemoryQueueBackend ω ε)
    (queue_name : String) (timeout : Option Nat) :
    Option Task × MemoryQueueBackend ω ε :=
  let qs := s.get_queue queue_name
  match qs.1 with
  | [] => (none, qs.2)
  | item :: rest =>
    (some item.task,
     { qs.2 with queues := setA queue_name (rest ++ [item]) qs.2.queues })

/-- Embedding of `MemoryQueueBackend.shutdown`: in asynchronous mode clear the
`running` flag and join each worker with a bounded timeout, logging (never
raising) when one stays alive; besides being safely callable it is a no-op in
synchronous mode. Joining threads does not change backend state, so the whole
effect is clearing `running`. -/
def MemoryQueueBackend.shutdown {ω ε : Type} (s : MemoryQueueBackend ω ε) :
    MemoryQueueBackend ω ε :=
  if s.sync_processing then s else { s with running := false }

/-- Embedding of an RQ job record held by the broker (`rq.job.Job`), as far as
this layer reads it back: id, function name, args, kwargs. The stored callable
itself is only consumed by out-of-process RQ workers, outside this layer. -/
structure RJob where
  id : String
  func_name : String
  args : List String
  kwargs : List (String × String)
deriving DecidableEq, Repr

/-- Embedding of the state of `RedisQueueBackend` (`redis_backend.py`) plus
the broker state it manipulates: `jobs` is the broker's job store keyed by job
id, `queueJobIds` the per-queue pending job-id lists, `queueNames` the local
memo of created RQ `Queue` handles (a handle is determined by its name), and
`nextJobId` the fresh-id counter modelling the broker's job-id generation. -/
structure RedisQueueBackend where
  jobs : List (String × RJob)
  queueJobIds : List (String × List String)
  queueNames : List String
  nextJobId : Nat
deriving DecidableEq, Repr

/-- Embedding of `RedisQueueBackend.__init__` after a successful connection:
no memoized queue handles, and the broker in its current state — for claims
starting from a fresh broker, empty stores. -/
def RedisQueueBackend.init : RedisQueueBackend :=
  { jobs := [], queueJobIds := [], queueNames := [], nextJobId := 0 }

/-- Embedding of `RedisQueueBackend._get_queue`: memoize the RQ `Queue` handle
for `queue_name` (handle creation touches no broker state). -/
def RedisQueueBackend.get_queue (s : RedisQueueBackend) (queue_name : String) :
    RedisQueueBackend :=
  if queue_name ∈ s.queueNames then s
  else { s with queueNames := s.queueNames ++ [queue_name] }

/-- Embedding of `RedisQueueBackend.enqueue`: create/memoize the queue handle,
submit the callable to the broker — which stores a job under a freshly
generated id and appends that id to the queue — and wrap the job id into the
returned `Task`. `func_name` stands for `func.__name__`. -/
def RedisQueueBackend.enqueue (s : RedisQueueBackend) (queue_name : String)
    (func_name : String) (args : List String)
    (kwargs : List (String × String)) : Task × RedisQueueBackend :=
  let s1 := s.get_queue queue_name
  let jid := freshId s1.nextJobId
  let job : RJob :=
    { id := jid, func_name := func_name, args := args, kwargs := kwargs }
  let ids := (lookupA queue_name s1.queueJobIds).getD []
  let s2 : RedisQueueBackend :=
    { s1 with
      jobs := setA jid job s1.jobs,
      queueJobIds := setA queue_name (ids ++ [jid]) s1.queueJobIds,
      nextJobId := s1.nextJobId + 1 }
  ({ id := jid, func_name := func_name, args := args, kwargs := kwargs,
     queue_name := queue_name }, s2)

/-- Embedding of `RedisQueueBackend.get_task`: list the queue's pending job
ids; if none, return `none`; otherwise `Job.fetch` the first id and rebuild a
`Task` from the stored job (a fetch of an id the broker no longer stores
raises, propagating to the caller). Purely introspective: no dequeue. The
`timeout` parameter is unused in the RQ implementation. -/
def RedisQueueBackend.get_task (s : RedisQueueBackend) (queue_name : String)
    (timeout : Option Nat) : Except String (Option Task) × RedisQueueBackend :=
  let s1 := s.get_queue queue_name
  match (lookupA queue_name s1.queueJobIds).getD [] with
  | [] => (Except.ok none, s1)
  | jid :: _ =>
    match lookupA jid s1.jobs with
    | none => (Except.error "NoSuchJobError", s1)
    | some job =>
      (Except.ok (some { id := job.id, func_name := job.func_name,
                         args := job.args, kwargs := job.kwargs,
                         queue_name := queue_name }), s1)

/-- Embedding of `RedisQueueBackend.mark_complete`: `Job.fetch(task.id)` for
logging only — the broker's workers own completion. A failed fetch (unknown
job id) is logged and re-raised to the caller. Broker state is not changed. -/
def RedisQueueBackend.mark_complete (s : RedisQueueBackend) (task : Task) :
    Except String Unit :=
  match lookupA task.id s.jobs with
  | some _ => Except.ok ()
  | none => Except.error "NoSuchJobError"

/-- Embedding of `RedisQueueBackend.mark_failed`: same fetch-for-logging as
`mark_complete`; the error argument is only logged; a failed fetch is
re-raised. -/
def RedisQueueBackend.mark_failed (s : RedisQueueBackend) (task : Task)
    (error : String) : Except String Unit :=
  match lookupA task.id s.jobs with
  | some _ => Except.ok ()
  | none => Except.error "NoSuchJobError"

/-- The backend instance the factory memoizes: one of the two concrete
backends of `factory.py`. -/
inductive CreatedBackend (ω ε : Type) where
  | memoryB (b : MemoryQueueBackend ω ε)
  | redisB (b : RedisQueueBackend)

/-- Embedding of the module-global `_queue_backend` singleton slot of
`factory.py`. -/
structure FactoryState (ω ε : Type) where
  backend : Option (CreatedBackend ω ε)

/-- Embedding of `get_queue_backend`: when the slot is empty, read the
settings, construct the backend the `queue_backend` setting selects, log and
memoize it; otherwise return the memoized instance untouched. -/
def get_queue_backend {ω ε : Type} (fs : FactoryState ω ε)
    (settings : Settings) : CreatedBackend ω ε × FactoryState ω ε :=
  match fs.backend with
  | some b => (b, fs)
  | none =>
    match settings.queue_backend with
    | QueueBackendEnum.redis =>
      (CreatedBackend.redisB RedisQueueBackend.init,
       { backend := some (CreatedBackend.redisB RedisQueueBackend.init) })
    | QueueBackendEnum.memory =>
      (CreatedBackend.memoryB (MemoryQueueBackend.init ω ε settings),
       { backend := some (CreatedBackend.memoryB
           (MemoryQueueBackend.init ω ε settings)) })

/-- Embedding of `reset_queue_backend`: when an instance exists and it is the
in-memory kind, call its `shutdown()`, then discard the reference; a bare
discard for the Redis kind; a no-op when the slot is already empty. The
returned `Bool` records whether `shutdown()` was invoked (its state effect
dies with the discarded reference). -/
def reset_queue_backend {ω ε : Type} (fs : FactoryState ω ε) :
    FactoryState ω ε × Bool :=
  match fs.backend with
  | none => (fs, false)
  | some (CreatedBackend.memoryB b) =>
    let _ := b.shutdown
    ({ backend := none }, true)
  | some (CreatedBackend.redisB _) => ({ backend := none }, false)

/-- One enqueue request against the memory backend: the arguments of a single
`enqueue` call. -/
structure EnqueueReq (ω ε : Type) where
  queue_name : String
  func : Handler ω ε
  func_name : String
  args : List String
  kwargs : List (String × String)

/-- Tasks a single `enqueue` call hands back to its caller: one on a normal
return, none when the call re-raises. -/
def returnedTasks {ε : Type} : Except ε Task → List Task
  | Except.ok t => [t]
  | Except.error _ => []

/-- Run a sequence of `enqueue` calls against the memory backend, threading
state and world, and collect every `Task` returned to the callers. -/
def runEnqueues {ω ε : Type} :
    MemoryQueueBackend ω ε → ω → List (EnqueueReq ω ε) →
      List Task × MemoryQueueBackend ω ε × ω
  | s, w, [] => ([], s, w)
  | s, w, r :: rs =>
    let step := s.enqueue w r.queue_name r.func r.func_name r.args r.kwargs
    let rest := runEnqueues step.2.1 step.2.2 rs
    (returnedTasks step.1 ++ rest.1, rest.2)

/-- One enqueue request against the Redis backend. -/
structure RedisEnqueueReq where
  queue_name : String
  func_name : String
  args : List String
  kwargs : List (String × String)

/-- Run a sequence of `enqueue` calls against the Redis backend and collect
the returned tasks. -/
def runRedisEnqueues :
    RedisQueueBackend → List RedisEnqueueReq → List Task × RedisQueueBackend
  | s, [] => ([], s)
  | s, r :: rs =>
    let step := s.enqueue r.queue_name r.func_name r.args r.kwargs
    let rest := runRedisEnqueues step.2 rs
    (step.1 :: rest.1, rest.2)

/-- The tasks sitting on the named in-memory channel, front first (projecting
the stored tuples to their `Task` components; an absent channel reads as
empty). -/
def queueTasksOf {ω ε : Type} (s : MemoryQueueBackend ω ε)
    (queue_name : String) : List Task :=
  ((lookupA queue_name s.queues).getD []).map QItem.task

/-- The `@dataclass` decorator on `Task` in `queue/base.py` carries no
`frozen=True` flag. -/
def taskDataclassFrozen : Bool := false

/-- Python dataclass field-assignment semantics for `t.id = v`: raises
`FrozenInstanceError` when the dataclass is declared frozen, succeeds and
rebinds the field otherwise. -/
def dataclassSetId (frozen : Bool) (t : Task) (v : String) :
    Except String Task :=
  if frozen then Except.error "FrozenInstanceError"
  else Except.ok { t with id := v }

/-- Settings for a synchronous in-memory deployment, used by concrete
instances below. -/
def syncSettings : Settings :=
  { queue_backend := QueueBackendEnum.memory, sync_processing := true,
    worker_threads := 4 }

/-- Settings for an asynchronous in-memory deployment with two workers. -/
def asyncSettings : Settings :=
  { queue_backend := QueueBackendEnum.memory, sync_processing := false,
    worker_threads := 2 }

/-- A freshly constructed asynchronous in-memory backend whose handlers act on
a `List String` world and raise `String` errors. -/
def emptyAsyncBackend : MemoryQueueBackend (List String) String :=
  MemoryQueueBackend.init (List String) String asyncSettings

/-- A freshly constructed synchronous in-memory backend over the same handler
types. -/
def emptySyncBackend : MemoryQueueBackend (List String) String :=
  MemoryQueueBackend.init (List String) String syncSettings

/-- Handler that appends its positional arguments to the shared list `L`
playing the world — the `f` of the spec's synchronous scenario. -/
def appendHandler : Handler (List String) String :=
  fun args _ w => Except.ok (w ++ args)

/-- Handler that raises unconditionally. -/
def raisingHandler : Handler (List String) String :=
  fun _ _ _ => Except.error "boom"

/-- A task id no backend below has ever issued. -/
def unknownTask : Task :=
  { id := "missing", func_name := "f", args := [], kwargs := [],
    queue_name := "q" }

/-- First task of the two-element queue used to test `get_task`. -/
def peekTask1 : Task :=
  { id := "id1", func_name := "f", args := [], kwargs := [],
    queue_name := "q" }

/-- Second task of the two-element queue used to test `get_task`. -/
def peekTask2 : Task :=
  { id := "id2", func_name := "g", args := [], kwargs := [],
    queue_name := "q" }

/-- An asynchronous in-memory backend whose channel `q` holds two pending
tasks, `peekTask1` in front of `peekTask2` — the state reached by enqueuing
the two tasks in that order. -/
def twoItemBackend : MemoryQueueBackend (List String) String :=
  { queues := [("q", [⟨appendHandler, [], [], peekTask1⟩,
                       ⟨appendHandler, [], [], peekTask2⟩])],
    tasks := [("id1", peekTask1), ("id2", peekTask2)],
    workers := 2, running := true, sync_processing := false,
    worker_threads := 2, nextId := 2 }

/-- A Redis backend after one `enqueue` of handler `f` with argument `x` to
queue `q` on a fresh connection. -/
def oneJobRedisBackend : RedisQueueBackend :=
  (RedisQueueBackend.init.enqueue "q" "f" ["x"] []).2

/-- The task a concrete asynchronous `enqueue` call returns, used to exhibit
`Task` mutability on a value actually created by `enqueue`. -/
def enqueuedTask : Task :=
  match (emptyAsyncBackend.enqueue [] "q" appendHandler "f" ["x"] []).1 with
  | Except.ok t => t
  | Except.error _ => unknownTask

theorem lookupA_eraseA {α : Type} (k k2 : String) (l : List (String × α)) :
    lookupA k (eraseA k2 l) = if k2 = k then none else lookupA k l := by
  induction l with
  | nil => by_cases h : k2 = k <;> simp [lookupA, eraseA, h]
  | cons p rest ih =>
    obtain ⟨k3, v⟩ := p
    by_cases h3 : k3 = k2
    · subst h3
      by_cases hk : k3 = k
      · subst hk
        simp only [eraseA, if_pos rfl]
        simpa using ih
      · simp [lookupA, eraseA, hk, ih]
    · by_cases hk : k3 = k
      · subst hk
        by_cases h2 : k2 = k3 <;> simp_all [lookupA, eraseA]
      · simp [lookupA, eraseA, h3, hk, ih]

theorem eraseA_of_lookupA_none {α : Type} (k : String) (l : List (String × α))
    (h : lookupA k l = none) : eraseA k l = l := by
  induction l with
  | nil => rfl
  | cons p rest ih =>
    obtain ⟨k2, v⟩ := p
    by_cases hk : k2 = k
    · simp [lookupA, hk] at h
    · simp [lookupA, hk] at h
      simp [eraseA, hk, ih h]

theorem lookupA_setA {α : Type} (k k2 : String) (v : α) (l : List (String × α)) :
    lookupA k (setA k2 v l) = if k2 = k then some v else lookupA k l := by
  induction l with
  | nil => by_cases h : k2 = k <;> simp [lookupA, setA, h]
  | cons p rest ih =>
    obtain ⟨k3, v3⟩ := p
    by_cases h3 : k3 = k2
    · subst h3
      by_cases hk : k3 = k <;> simp [lookupA, setA, hk]
    · by_cases hk : k3 = k
      · subst hk
        by_cases h2 : k2 = k3 <;> simp_all [lookupA, setA]
      · simp [lookupA, setA, h3, hk, ih]

theorem freshId_injective : Function.Injective freshId := by
  intro m n h
  have hlen : (freshId m).length = (freshId n).length := by rw [h]
  simpa [freshId, String.length] using hlen

/-- C9: on the in-memory backend, `mark_complete` and `mark_failed` are the
same state transformer: for every state, task and error both remove `task.id`
from the pending-task map if present and leave every other component of the
backend state unchanged, differing only in logging. -/
theorem mark_complete_mark_failed_equiv {ω ε : Type}
    (s : MemoryQueueBackend ω ε) (task : Task) (error : ε) :
    s.mark_failed task error = s.mark_complete task
    ∧ (s.mark_complete task).queues = s.queues
    ∧ (s.mark_complete task).workers = s.workers
    ∧ (s.mark_complete task).running = s.running
    ∧ (s.mark_complete task).sync_processing = s.sync_processing
    ∧ (s.mark_complete task).worker_threads = s.worker_threads
    ∧ (s.mark_complete task).nextId = s.nextId
    ∧ ∀ k, lookupA k (s.mark_complete task).tasks =
        if task.id = k then none else lookupA k s.tasks := by
  refine ⟨rfl, rfl, rfl, rfl, rfl, rfl, rfl, fun k => ?_⟩
  simp [MemoryQueueBackend.mark_complete, lookupA_eraseA]

/-- C10: on the in-memory backend, `get_task` on a never-referenced queue name
is not read-only: it returns `none` but creates and memoizes an empty channel
for that name in the backend's queue map. -/
theorem get_task_creates_channel {ω ε : Type} (s : MemoryQueueBackend ω ε)
    (name : String) (h : lookupA name s.queues = none) :
    (s.get_task name (some 0)).1 = none
    ∧ lookupA name (s.get_task name (some 0)).2.queues = some [] := by
  simp [MemoryQueueBackend.get_task, MemoryQueueBackend.get_queue, h,
    lookupA_setA]

/-- Witness for `get_task_creates_channel` on a fresh backend and the queue
name `healing`. -/
theorem get_task_creates_channel_witness :
    (emptyAsyncBackend.get_task "healing" (some 0)).1 = none
    ∧ lookupA "healing"
        (emptyAsyncBackend.get_task "healing" (some 0)).2.queues = some [] :=
  get_task_creates_channel emptyAsyncBackend "healing" rfl

/-- C3: acknowledging or failing a task with an unknown id is a silent no-op
on the in-memory backend's `mark_complete`/`mark_failed` (state unchanged, no
exception), whereas the Redis backend's `mark_complete`/`mark_failed`
propagate the job-lookup failure to the caller as an error. -/
theorem unknown_task_ack_asymmetry :
    (∀ (ω ε : Type) (s : MemoryQueueBackend ω ε) (task : Task) (error : ε),
      lookupA task.id s.tasks = none →
        s.mark_complete task = s ∧ s.mark_failed task error = s)
    ∧ (∀ (s : RedisQueueBackend) (task : Task) (error : String),
      lookupA task.id s.jobs = none →
        s.mark_complete task = Except.error "NoSuchJobError"
        ∧ s.mark_failed task error = Except.error "NoSuchJobError") := by
  constructor
  · intro ω ε s task error h
    constructor
    · show { s with tasks := eraseA task.id s.tasks } = s
      rw [eraseA_of_lookupA_none task.id s.tasks h]
    · show { s with tasks := eraseA task.id s.tasks } = s
      rw [eraseA_of_lookupA_none task.id s.tasks h]
  · intro s task error h
    constructor <;>
      simp [RedisQueueBackend.mark_complete, RedisQueueBackend.mark_failed, h]

/-- Witness for `unknown_task_ack_asymmetry` at fresh backends and a task id
never issued by either. -/
theorem unknown_task_ack_asymmetry_witness :
    (emptyAsyncBackend.mark_complete unknownTask = emptyAsyncBackend
      ∧ emptyAsyncBackend.mark_failed unknownTask "err" = emptyAsyncBackend)
    ∧ (RedisQueueBackend.init.mark_complete unknownTask
        = Except.error "NoSuchJobError"
      ∧ RedisQueueBackend.init.mark_failed unknownTask "err"
        = Except.error "NoSuchJobError") :=
  ⟨unknown_task_ack_asymmetry.1 (List String) String emptyAsyncBackend
      unknownTask "err" rfl,
   unknown_task_ack_asymmetry.2 RedisQueueBackend.init unknownTask "err" rfl⟩

/-- C6: shutdown is idempotent and total: the in-memory backend's `shutdown`
applied twice equals it applied once; `reset_queue_backend` on an empty slot
is a no-op returning no error; `reset_queue_backend` twice in a row always
ends on the empty slot without invoking anything further; and the reset
invokes the backend's `shutdown()` exactly when the memoized instance is the
in-memory kind. -/
theorem shutdown_reset_idempotent {ω ε : Type} (s : MemoryQueueBackend ω ε)
    (fs : FactoryState ω ε) :
    s.shutdown.shutdown = s.shutdown
    ∧ reset_queue_backend (FactoryState.mk none : FactoryState ω ε)
        = (FactoryState.mk none, false)
    ∧ reset_queue_backend (reset_queue_backend fs).1
        = (FactoryState.mk none, false)
    ∧ ((reset_queue_backend fs).2 = true
        ↔ ∃ b, fs.backend = some (CreatedBackend.memoryB b)) := by
  refine ⟨?_, rfl, ?_, ?_⟩
  · by_cases h : s.sync_processing = true <;>
      simp [MemoryQueueBackend.shutdown, h]
  · obtain ⟨b⟩ := fs
    cases b with
    | none => rfl
    | some cb => cases cb <;> rfl
  · obtain ⟨b⟩ := fs
    cases b with
    | none => simp [reset_queue_backend]
    | some cb => cases cb <;> simp [reset_queue_backend]

/-- C7: the factory is lazily memoizing: a first call on the empty slot
constructs the backend the settings passed at that moment select (Redis for
the redis setting, in-memory otherwise), and any subsequent call returns the
memoized instance unchanged, whatever settings it is given. -/
theorem get_queue_backend_lazy_memoized {ω ε : Type}
    (settings settings2 : Settings) (fs : FactoryState ω ε) :
    (get_queue_backend (FactoryState.mk none : FactoryState ω ε) settings).1
      = (match settings.queue_backend with
         | QueueBackendEnum.redis =>
           CreatedBackend.redisB RedisQueueBackend.init
         | QueueBackendEnum.memory =>
           CreatedBackend.memoryB (MemoryQueueBackend.init ω ε settings))
    ∧ (get_queue_backend (get_queue_backend fs settings).2 settings2).1
      = (get_queue_backend fs settings).1 := by
  constructor
  · cases h : settings.queue_backend <;> simp [get_queue_backend, h]
  · obtain ⟨b⟩ := fs
    cases b with
    | some cb => rfl
    | none => cases h : settings.queue_backend <;> simp [get_queue_backend, h]

/-- C1: in the in-memory backend's synchronous mode, when the handler raises,
`enqueue` itself re-raises the same exception to the caller, and the task's id
is absent from the backend's pending-task map immediately afterwards (the
world is returned as the failed handler left it). -/
theorem sync_error_propagation {ω ε : Type} (s : MemoryQueueBackend ω ε)
    (w : ω) (queue_name : String) (func : Handler ω ε) (func_name : String)
    (args : List String) (kwargs : List (String × String)) (e : ε)
    (hsync : s.sync_processing = true)
    (hraise : func args kwargs w = Except.error e) :
    (s.enqueue w queue_name func func_name args kwargs).1 = Except.error e
    ∧ lookupA (freshId s.nextId)
        (s.enqueue w queue_name func func_name args kwargs).2.1.tasks
      = none := by
  simp [MemoryQueueBackend.enqueue, hsync, hraise,
    MemoryQueueBackend.mark_failed, lookupA_eraseA]

/-- Witness for `sync_error_propagation`: a handler raising `boom` on a fresh
synchronous backend makes `enqueue` return that very error, with the fresh id
untracked. -/
theorem sync_error_propagation_witness :
    (emptySyncBackend.enqueue [] "q" raisingHandler "f" ["x"] []).1
      = Except.error "boom"
    ∧ lookupA (freshId emptySyncBackend.nextId)
        (emptySyncBackend.enqueue [] "q" raisingHandler "f" ["x"] []).2.1.tasks
      = none :=
  sync_error_propagation emptySyncBackend [] "q" raisingHandler "f" ["x"] []
    "boom" rfl rfl

/-- C5: in the in-memory backend's synchronous mode every side effect of the
handler has already occurred when `enqueue` returns — the world `enqueue`
hands back is exactly the world the handler produced — and the returned
task's id is absent from the backend's pending map at that point. -/
theorem sync_immediacy {ω ε : Type} (s : MemoryQueueBackend ω ε) (w w2 : ω)
    (queue_name : String) (func : Handler ω ε) (func_name : String)
    (args : List String) (kwargs : List (String × String))
    (hsync : s.sync_processing = true)
    (hok : func args kwargs w = Except.ok w2) :
    (s.enqueue w queue_name func func_name args kwargs).2.2 = w2
    ∧ ∀ t, (s.enqueue w queue_name func func_name args kwargs).1
        = Except.ok t →
      lookupA t.id
        (s.enqueue w queue_name func func_name args kwargs).2.1.tasks
      = none := by
  constructor
  · simp [MemoryQueueBackend.enqueue, hsync, hok]
  · intro t ht
    simp [MemoryQueueBackend.enqueue, hsync, hok] at ht ⊢
    subst ht
    simp [MemoryQueueBackend.mark_complete, lookupA_eraseA]

/-- Witness for `sync_immediacy`: the spec's scenario — enqueue a handler that
appends its argument `x` to the initially empty list playing the world; the
list equals `[x]` and the fresh task id is untracked immediately after
`enqueue` returns. -/
theorem sync_immediacy_witness :
    (emptySyncBackend.enqueue [] "q" appendHandler "f" ["x"] []).2.2 = ["x"]
    ∧ lookupA (freshId emptySyncBackend.nextId)
        (emptySyncBackend.enqueue [] "q" appendHandler "f" ["x"] []).2.1.tasks
      = none := by
  have h := sync_immediacy emptySyncBackend [] ["x"] "q" appendHandler "f"
    ["x"] [] rfl rfl
  exact ⟨h.1, h.2 _ rfl⟩

theorem redis_get_queue_frame (s : RedisQueueBackend) (queue_name : String) :
    (s.get_queue queue_name).jobs = s.jobs
    ∧ (s.get_queue queue_name).queueJobIds = s.queueJobIds := by
  unfold RedisQueueBackend.get_queue
  by_cases h : queue_name ∈ s.queueNames <;> simp [h]

theorem redis_get_task_state (s : RedisQueueBackend) (queue_name : String)
    (timeout : Option Nat) :
    (s.get_task queue_name timeout).2 = s.get_queue queue_name := by
  unfold RedisQueueBackend.get_task
  rcases h : (lookupA queue_name (s.get_queue queue_name).queueJobIds).getD []
    with _ | ⟨jid, rest⟩
  · simp [h]
  · rcases h2 : lookupA jid (s.get_queue queue_name).jobs with _ | job <;>
      simp [h, h2]

/-- C2 fails on the in-memory backend: with channel `q` holding `peekTask1`
then `peekTask2`, `get_task` returns the first task but pops it and re-pushes
it at the back, reversing the channel's order — the queue's contents are not
left unchanged in order. -/
theorem get_task_reorders_queue :
    (twoItemBackend.get_task "q" (some 0)).1 = some peekTask1
    ∧ queueTasksOf twoItemBackend "q" = [peekTask1, peekTask2]
    ∧ queueTasksOf (twoItemBackend.get_task "q" (some 0)).2 "q"
      = [peekTask2, peekTask1]
    ∧ ([peekTask2, peekTask1] : List Task) ≠ [peekTask1, peekTask2] := by
  refine ⟨rfl, rfl, rfl, by decide⟩

/-- C2 amended: `get_task` is a peek returning the next pending task and an
empty result when nothing is queued; the Redis backend leaves the broker's
job store and queue contents untouched, returns `ok none` (no error) on an
empty queue, and on a nonempty queue returns the first pending job rebuilt
as a `Task`; the in-memory backend preserves the channel's contents as a
multiset but moves the returned front item to the back, so the order is not
preserved when two or more items are queued. -/
theorem get_task_peek_amended :
    (∀ (ω ε : Type) (s : MemoryQueueBackend ω ε) (queue_name : String)
        (timeout : Option Nat),
      (s.get_task queue_name timeout).1 = (queueTasksOf s queue_name).head?
      ∧ List.Perm (queueTasksOf (s.get_task queue_name timeout).2 queue_name)
          (queueTasksOf s queue_name)
      ∧ ((s.get_task queue_name timeout).1 = none
          ↔ queueTasksOf s queue_name = []))
    ∧ (∀ (s : RedisQueueBackend) (queue_name : String) (timeout : Option Nat),
      (s.get_task queue_name timeout).2.jobs = s.jobs
      ∧ (s.get_task queue_name timeout).2.queueJobIds = s.queueJobIds
      ∧ ((lookupA queue_name s.queueJobIds).getD [] = [] →
          (s.get_task queue_name timeout).1 = Except.ok none)
      ∧ (∀ (jid : String) (rest : List String) (job : RJob),
          (lookupA queue_name s.queueJobIds).getD [] = jid :: rest →
          lookupA jid s.jobs = some job →
          (s.get_task queue_name timeout).1
            = Except.ok (some { id := job.id, func_name := job.func_name,
                                args := job.args, kwargs := job.kwargs,
                                queue_name := queue_name }))) := by
  constructor
  · intro ω ε s queue_name timeout
    unfold MemoryQueueBackend.get_task MemoryQueueBackend.get_queue
      queueTasksOf
    rcases h : lookupA queue_name s.queues with _ | q
    · simp [h, lookupA_setA]
    · rcases q with _ | ⟨item, rest⟩
      · simp [h]
      · simp [h, lookupA_setA]
  · intro s queue_name timeout
    refine ⟨?_, ?_, ?_, ?_⟩
    · rw [redis_get_task_state]
      exact (redis_get_queue_frame s queue_name).1
    · rw [redis_get_task_state]
      exact (redis_get_queue_frame s queue_name).2
    · intro h
      simp [RedisQueueBackend.get_task, (redis_get_queue_frame s queue_name).2,
        h]
    · intro jid rest job hq hj
      simp [RedisQueueBackend.get_task, (redis_get_queue_frame s queue_name).2,
        (redis_get_queue_frame s queue_name).1, hq, hj]

/-- Witness for `get_task_peek_amended`: the peek equations at the concrete
two-item backend, a fresh Redis backend with an empty queue, and a Redis
backend holding one enqueued job, which `get_task` returns as a `Task`. -/
theorem get_task_peek_amended_witness :
    (twoItemBackend.get_task "q" (some 0)).1
        = (queueTasksOf twoItemBackend "q").head?
    ∧ (RedisQueueBackend.init.get_task "q" none).1 = Except.ok none
    ∧ (oneJobRedisBackend.get_task "q" none).1
        = Except.ok (some { id := freshId 0, func_name := "f",
                            args := ["x"], kwargs := [],
                            queue_name := "q" }) :=
  ⟨(get_task_peek_amended.1 (List String) String twoItemBackend "q"
      (some 0)).1,
   (get_task_peek_amended.2 RedisQueueBackend.init "q" none).2.2.1 rfl,
   (get_task_peek_amended.2 oneJobRedisBackend "q" none).2.2.2 (freshId 0) []
     { id := freshId 0, func_name := "f", args := ["x"], kwargs := [] }
     rfl rfl⟩

theorem memory_enqueue_nextId {ω ε : Type} (s : MemoryQueueBackend ω ε)
    (w : ω) (queue_name : String) (func : Handler ω ε) (func_name : String)
    (args : List String) (kwargs : List (String × String)) :
    (s.enqueue w queue_name func func_name args kwargs).2.1.nextId
      = s.nextId + 1 := by
  unfold MemoryQueueBackend.enqueue
  by_cases hs : s.sync_processing = true
  · rcases hf : func args kwargs w with e | w2 <;>
      simp [hs, hf, MemoryQueueBackend.mark_complete,
        MemoryQueueBackend.mark_failed]
  · simp only [Bool.not_eq_true] at hs
    unfold MemoryQueueBackend.get_queue
    rcases h : lookupA queue_name s.queues with _ | q <;> simp [hs, h]

theorem memory_enqueue_ok_id {ω ε : Type} (s : MemoryQueueBackend ω ε)
    (w : ω) (queue_name : String) (func : Handler ω ε) (func_name : String)
    (args : List String) (kwargs : List (String × String)) (t : Task)
    (h : (s.enqueue w queue_name func func_name args kwargs).1
      = Except.ok t) :
    t.id = freshId s.nextId := by
  unfold MemoryQueueBackend.enqueue at h
  by_cases hs : s.sync_processing = true
  · rcases hf : func args kwargs w with e | w2 <;> simp [hs, hf] at h
    subst h
    rfl
  · simp only [Bool.not_eq_true] at hs
    unfold MemoryQueueBackend.get_queue at h
    rcases hq : lookupA queue_name s.queues with _ | q <;>
      simp [hs, hq] at h <;> subst h <;> rfl

theorem runEnqueues_id_bound {ω ε : Type} (rs : List (EnqueueReq ω ε)) :
    ∀ (s : MemoryQueueBackend ω ε) (w : ω) (t : Task),
      t ∈ (runEnqueues s w rs).1 → ∃ n, s.nextId ≤ n ∧ t.id = freshId n := by
  induction rs with
  | nil => intro s w t ht; simp [runEnqueues] at ht
  | cons r rs ih =>
    intro s w t ht
    simp only [runEnqueues, List.mem_append] at ht
    rcases ht with ht | ht
    · refine ⟨s.nextId, le_refl _, ?_⟩
      rcases hr : (s.enqueue w r.queue_name r.func r.func_name r.args
        r.kwargs).1 with e | t2
      · simp [returnedTasks, hr] at ht
      · simp [returnedTasks, hr] at ht
        subst ht
        exact memory_enqueue_ok_id s w r.queue_name r.func r.func_name r.args
          r.kwargs t hr
    · obtain ⟨n, hn, hid⟩ := ih _ _ t ht
      refine ⟨n, ?_, hid⟩
      have := memory_enqueue_nextId s w r.queue_name r.func r.func_name r.args
        r.kwargs
      omega

theorem runEnqueues_ids_nodup {ω ε : Type} (rs : List (EnqueueReq ω ε)) :
    ∀ (s : MemoryQueueBackend ω ε) (w : ω),
      ((runEnqueues s w rs).1.map Task.id).Nodup := by
  induction rs with
  | nil => intro s w; simp [runEnqueues]
  | cons r rs ih =>
    intro s w
    simp only [runEnqueues, List.map_append, List.nodup_append]
    refine ⟨?_, ih _ _, ?_⟩
    · rcases hr : (s.enqueue w r.queue_name r.func r.func_name r.args
        r.kwargs).1 with e | t2 <;> simp [returnedTasks, hr]
    · intro x hx hx2
      rcases hr : (s.enqueue w r.queue_name r.func r.func_name r.args
        r.kwargs).1 with e | t2
      · simp [returnedTasks, hr] at hx
      · simp [returnedTasks, hr] at hx
        subst hx
        simp only [List.mem_map] at hx2
        obtain ⟨t3, ht3, hid3⟩ := hx2
        obtain ⟨n, hn, hfid⟩ := runEnqueues_id_bound rs _ _ t3 ht3
        have hnext := memory_enqueue_nextId s w r.queue_name r.func
          r.func_name r.args r.kwargs
        rw [hnext] at hn
        have h2 := memory_enqueue_ok_id s w r.queue_name r.func r.func_name
          r.args r.kwargs t2 hr
        rw [hfid, h2] at hid3
        have := freshId_injective hid3
        omega

theorem redis_enqueue_nextJobId (s : RedisQueueBackend) (queue_name : String)
    (func_name : String) (args : List String)
    (kwargs : List (String × String)) :
    (s.enqueue queue_name func_name args kwargs).2.nextJobId
        = s.nextJobId + 1
    ∧ (s.enqueue queue_name func_name args kwargs).1.id
        = freshId s.nextJobId := by
  unfold RedisQueueBackend.enqueue RedisQueueBackend.get_queue
  by_cases h : queue_name ∈ s.queueNames <;> simp [h]

theorem runRedisEnqueues_id_bound (rs : List RedisEnqueueReq) :
    ∀ (s : RedisQueueBackend) (t : Task),
      t ∈ (runRedisEnqueues s rs).1 →
        ∃ n, s.nextJobId ≤ n ∧ t.id = freshId n := by
  induction rs with
  | nil => intro s t ht; simp [runRedisEnqueues] at ht
  | cons r rs ih =>
    intro s t ht
    simp only [runRedisEnqueues, List.mem_cons] at ht
    rcases ht with ht | ht
    · subst ht
      exact ⟨s.nextJobId, le_refl _,
        (redis_enqueue_nextJobId s r.queue_name r.func_name r.args
          r.kwargs).2⟩
    · obtain ⟨n, hn, hid⟩ := ih _ t ht
      refine ⟨n, ?_, hid⟩
      have := (redis_enqueue_nextJobId s r.queue_name r.func_name r.args
        r.kwargs).1
      omega

theorem runRedisEnqueues_ids_nodup (rs : List RedisEnqueueReq) :
    ∀ (s : RedisQueueBackend),
      ((runRedisEnqueues s rs).1.map Task.id).Nodup := by
  induction rs with
  | nil => intro s; simp [runRedisEnqueues]
  | cons r rs ih =>
    intro s
    simp only [runRedisEnqueues, List.map_cons, List.nodup_cons]
    refine ⟨?_, ih _⟩
    intro hx
    simp only [List.mem_map] at hx
    obtain ⟨t3, ht3, hid3⟩ := hx
    obtain ⟨n, hn, hfid⟩ := runRedisEnqueues_id_bound rs _ t3 ht3
    have hchar := redis_enqueue_nextJobId s r.queue_name r.func_name r.args
      r.kwargs
    rw [hchar.1] at hn
    rw [hfid, hchar.2] at hid3
    have := freshId_injective hid3
    omega

/-- C4: over any sequence of `enqueue` calls on a single backend instance —
in-memory or Redis — the ids of the `Task` values returned to the callers are
pairwise distinct. -/
theorem enqueue_ids_pairwise_distinct :
    (∀ (ω ε : Type) (s : MemoryQueueBackend ω ε) (w : ω)
        (rs : List (EnqueueReq ω ε)),
      ((runEnqueues s w rs).1.map Task.id).Nodup)
    ∧ (∀ (s : RedisQueueBackend) (rs : List RedisEnqueueReq),
      ((runRedisEnqueues s rs).1.map Task.id).Nodup) :=
  ⟨fun _ _ s w rs => runEnqueues_ids_nodup rs s w,
   fun s rs => runRedisEnqueues_ids_nodup rs s⟩

theorem memory_get_queue_tasks {ω ε : Type} (s : MemoryQueueBackend ω ε)
    (queue_name : String) : (s.get_queue queue_name).2.tasks = s.tasks := by
  unfold MemoryQueueBackend.get_queue
  rcases h : lookupA queue_name s.queues with _ | q <;> simp [h]

theorem memory_get_task_tasks {ω ε : Type} (s : MemoryQueueBackend ω ε)
    (queue_name : String) (timeout : Option Nat) :
    (s.get_task queue_name timeout).2.tasks = s.tasks := by
  unfold MemoryQueueBackend.get_task
  rcases h : (s.get_queue queue_name).1 with _ | ⟨item, rest⟩ <;>
    simp [h, memory_get_queue_tasks]

/-- C8 fails as stated: `Task` in `queue/base.py` is a plain `@dataclass`
without `frozen=True`, so Python field assignment on a `Task` returned by
`enqueue` succeeds and yields a record whose `id` differs from the one the
backend assigned. -/
theorem task_field_assignment_succeeds :
    (dataclassSetId taskDataclassFrozen enqueuedTask "mutated").map Task.id
      = Except.ok "mutated"
    ∧ enqueuedTask.id ≠ "mutated" := by
  exact ⟨rfl, by decide⟩

/-- C8 amended: the queue layer itself never changes a created `Task`: every
in-memory backend operation leaves any still-tracked task record identical to
the record it held before (operations only insert a freshly-identified entry
or delete entries); but since the dataclass is not frozen, immutability is
not language-enforced against reference holders. -/
theorem backend_preserves_stored_tasks {ω ε : Type}
    (s : MemoryQueueBackend ω ε) (k : String) (t : Task) :
    (∀ (task : Task) (t2 : Task), lookupA k s.tasks = some t →
      lookupA k (s.mark_complete task).tasks = some t2 → t2 = t)
    ∧ (∀ (task : Task) (error : ε) (t2 : Task), lookupA k s.tasks = some t →
      lookupA k (s.mark_failed task error).tasks = some t2 → t2 = t)
    ∧ (∀ (queue_name : String) (timeout : Option Nat) (t2 : Task),
      lookupA k s.tasks = some t →
      lookupA k (s.get_task queue_name timeout).2.tasks = some t2 → t2 = t)
    ∧ (∀ (w : ω) (queue_name : String) (func : Handler ω ε)
        (func_name : String) (args : List String)
        (kwargs : List (String × String)) (t2 : Task),
      k ≠ freshId s.nextId → lookupA k s.tasks = some t →
      lookupA k (s.enqueue w queue_name func func_name args kwargs).2.1.tasks
        = some t2 → t2 = t) := by
  refine ⟨?_, ?_, ?_, ?_⟩
  · intro task t2 h1 h2
    rw [MemoryQueueBackend.mark_complete] at h2
    rw [lookupA_eraseA] at h2
    by_cases hk : task.id = k
    · simp [hk] at h2
    · simp [hk, h1] at h2
      exact h2.symm
  · intro task error t2 h1 h2
    rw [MemoryQueueBackend.mark_failed] at h2
    rw [lookupA_eraseA] at h2
    by_cases hk : task.id = k
    · simp [hk] at h2
    · simp [hk, h1] at h2
      exact h2.symm
  · intro queue_name timeout t2 h1 h2
    rw [memory_get_task_tasks, h1] at h2
    exact (Option.some_inj.mp h2).symm
  · intro w queue_name func func_name args kwargs t2 hk h1 h2
    unfold MemoryQueueBackend.enqueue at h2
    by_cases hs : s.sync_processing = true
    · rcases hf : func args kwargs w with e | w2 <;>
        simp only [hs, hf, if_true, MemoryQueueBackend.mark_complete,
          MemoryQueueBackend.mark_failed] at h2 <;>
      · rw [lookupA_eraseA] at h2
        by_cases hik : freshId s.nextId = k
        · simp [hik] at h2
        · simp [hik, h1] at h2
          exact h2.symm
    · simp only [Bool.not_eq_true] at hs
      simp only [hs, Bool.false_eq_true, if_false] at h2
      rw [memory_get_queue_tasks] at h2
      rw [lookupA_setA] at h2
      rw [if_neg (fun h => hk h.symm), h1] at h2
      exact (Option.some_inj.mp h2).symm

/-- Witness for `backend_preserves_stored_tasks`: on the concrete two-item
backend, the entry for `id1` still holds `peekTask1` unchanged after a fresh
asynchronous enqueue. -/
theorem backend_preserves_stored_tasks_witness :
    lookupA "id1"
        (twoItemBackend.enqueue [] "q" appendHandler "f" [] []).2.1.tasks
      = some peekTask1
    ∧ peekTask1 = peekTask1 :=
  ⟨rfl, (backend_preserves_stored_tasks twoItemBackend "id1" peekTask1).2.2.2
    [] "q" appendHandler "f" [] [] peekTask1 (by decide) rfl rfl⟩

end DocHealing
